import Mathlib

/-!
Verification of the `ambr/models/abyss.py` response-schema layer.

The Python source declares pydantic models that parse a JSON payload
describing the "Spiral Abyss" game mode.  We embed the payload as an
inductive `Json` type (objects are insertion-ordered key/value lists,
matching Python `dict` iteration order; numbers are integers, as the wire
schema only carries integers), and each pydantic model as a Lean structure
together with a parser `Json → Except ParseError _` that mirrors the
declared fields, aliases and `field_validator`s.  Validation is modelled
fail-fast: the first failing field's structured error is returned, with a
path of field names and list indices.
-/

/-- JSON values.  Objects keep their key/value pairs in insertion order,
mirroring Python dict semantics; numeric leaves are integers. -/
inductive Json where
  | null : Json
  | bool (b : Bool) : Json
  | int (n : Int) : Json
  | str (s : String) : Json
  | arr (elems : List Json) : Json
  | obj (kvs : List (String × Json)) : Json
deriving Repr

/-- A structured date-time, identified with its POSIX seconds value;
`datetime.datetime.fromtimestamp(n)` is embedded as `DateTime.mk n`. -/
structure DateTime where
  seconds : Int
deriving Repr, DecidableEq

/-- One step of a validation-error location: a field name or a list index. -/
inductive PathItem where
  | field (name : String) : PathItem
  | index (i : Nat) : PathItem
deriving Repr, DecidableEq

/-- The kind of a validation failure.  `valueError` is a `ValueError` (or
`OverflowError`) raised inside a before-validator, as pydantic reports it. -/
inductive ErrKind where
  | missing : ErrKind
  | wrongType : ErrKind
  | valueError : ErrKind
deriving Repr, DecidableEq

/-- A structured validation failure: a location path and a reason. -/
structure ParseError where
  path : List PathItem
  kind : ErrKind
deriving Repr, DecidableEq

/-- Blessing model (`class Blessing`): description (HTML tags stripped),
level_config_name (wire alias `levelConfigName`), visible. -/
structure Blessing where
  description : String
  level_config_name : String
  visible : Bool
deriving Repr, DecidableEq

/-- ChallengeTarget model (`class ChallengeTarget`): a format template
`type` and a list of integer `values`. -/
structure ChallengeTarget where
  type : String
  values : List Int
deriving Repr, DecidableEq

/-- Chamber model (`class Chamber`). -/
structure Chamber where
  id : Int
  challenge_target : ChallengeTarget
  enemy_level : Int
  wave_one_enemies : List Int
  wave_two_enemies : Option (List Int)
deriving Repr, DecidableEq

/-- LeyLineDisorder model (`class LeyLineDisorder`): structurally identical
to `Blessing`, kept distinct as in the source. -/
structure LeyLineDisorder where
  description : String
  level_config_name : String
  visible : Bool
deriving Repr, DecidableEq

/-- Floor model (`class Floor`). -/
structure Floor where
  id : Int
  chambers : List Chamber
  ley_line_disorders : List LeyLineDisorder
  override_enemy_level : Int
  team_num : Int
deriving Repr, DecidableEq

/-- AbyssData model (`class AbyssData`): optional open time and floors. -/
structure AbyssData where
  open_time : Option DateTime
  floors : List Floor
deriving Repr, DecidableEq

/-- Abyss model (`class Abyss`): one abyss cycle. -/
structure Abyss where
  id : Int
  close_time : DateTime
  blessing : Blessing
  abyss_corridor : AbyssData
  abyssal_moon_spire : AbyssData
deriving Repr, DecidableEq

/-- AbyssEnemy model (`class AbyssEnemy`). -/
structure AbyssEnemy where
  icon : String
  id : Int
  link : Bool
  name : String
deriving Repr, DecidableEq

/-- AbyssResponse model (`class AbyssResponse`): the root object. -/
structure AbyssResponse where
  enemies : List AbyssEnemy
  abyss_items : List Abyss
deriving Repr, DecidableEq

/-- Python dict key lookup on an insertion-ordered key/value list. -/
def lookup? : List (String × Json) → String → Option Json
  | [], _ => none
  | (k1, v) :: rest, k => if k1 = k then some v else lookup? rest k

/-- Prepends one path step to the location of a failing computation. -/
def withPath (p : PathItem) : Except ParseError α → Except ParseError α
  | .ok a => .ok a
  | .error e => .error ⟨p :: e.path, e.kind⟩

/-- Fetches a required wire field and runs its converter, mirroring a
pydantic required field (`Field(...)`): an absent key is a missing-field
error located at the field name. -/
def reqTyped (kvs : List (String × Json)) (k : String)
    (conv : Json → Except ParseError α) : Except ParseError α :=
  match lookup? kvs k with
  | some v => withPath (.field k) (conv v)
  | none => .error ⟨[PathItem.field k], .missing⟩

/-- Accepts an integer leaf (pydantic `int` field). -/
def asInt : Json → Except ParseError Int
  | .int n => .ok n
  | _ => .error ⟨[], .wrongType⟩

/-- Accepts a string leaf (pydantic `str` field). -/
def asStr : Json → Except ParseError String
  | .str s => .ok s
  | _ => .error ⟨[], .wrongType⟩

/-- Accepts a boolean leaf (pydantic `bool` field). -/
def asBool : Json → Except ParseError Bool
  | .bool b => .ok b
  | _ => .error ⟨[], .wrongType⟩

/-- Parses the elements of a JSON array left to right, recording the index
of a failing element, as pydantic does for `List[...]` fields. -/
def parseListIdx (p : Json → Except ParseError α) : Nat → List Json → Except ParseError (List α)
  | _, [] => .ok []
  | i, j :: js => do
    let a ← withPath (.index i) (p j)
    let as ← parseListIdx p (i + 1) js
    .ok (a :: as)

/-- Requires a JSON array and parses each element. -/
def listOf (p : Json → Except ParseError α) : Json → Except ParseError (List α)
  | .arr js => parseListIdx p 0 js
  | _ => .error ⟨[], .wrongType⟩

/-- Parses each value of an object in insertion order, discarding the keys.
This embeds the comprehension `[Model(**v[item_id]) for item_id in v]`:
Python dict keys are unique, so iterating the keys and indexing visits
exactly the values in insertion order; the first exception aborts the
comprehension. -/
def mapValues (p : Json → Except ParseError α) : List (String × Json) → Except ParseError (List α)
  | [] => .ok []
  | (_, v) :: rest => do
    let a ← p v
    let as ← mapValues p rest
    .ok (a :: as)

/-- Python truthiness of a JSON value: `None`, `False`, `0`, `""` and empty
containers are falsy. -/
def falsy : Json → Bool
  | .null => true
  | .bool b => !b
  | .int n => n == 0
  | .str s => s == ""
  | .arr l => l.isEmpty
  | .obj l => l.isEmpty

/-- Whether the character list `pat` occurs at the start of `l`. -/
def startsWithChars : List Char → List Char → Bool
  | [], _ => true
  | _ :: _, [] => false
  | p :: ps, c :: cs => p == c && startsWithChars ps cs

/-- Whether the character list `pat` occurs anywhere in `l`. -/
def hasSubChars (pat : List Char) : List Char → Bool
  | [] => startsWithChars pat []
  | c :: rest => startsWithChars pat (c :: rest) || hasSubChars pat rest

/-- Python substring containment `pat in s`. -/
def containsSubstr (s pat : String) : Bool :=
  hasSubChars pat.data s.data

/-- One pass of shortest-match tag removal.  The second argument is the
pending run since an unclosed `<` (held in reverse): on `<` buffering
starts, on `>` the whole buffered run (the shortest `<...>` match) is
dropped, and a run left unclosed at the end of the input is emitted
unchanged, since the tag pattern does not match it. -/
def stripAux : List Char → Option (List Char) → List Char
  | [], none => []
  | [], some buf => buf.reverse
  | c :: r, none => if c = '<' then stripAux r (some [c]) else c :: stripAux r none
  | c :: r, some buf => if c = '>' then stripAux r none else stripAux r (some (c :: buf))

/-- Modelled from the spec: `remove_html_tags`, imported from
`ambr/utils.py`, is not included under `src/`.  Per §4.1 it removes all
substrings matching an HTML tag pattern `<...>` (shortest match), leaving
all other content, including HTML entities, untouched. -/
def remove_html_tags (s : String) : String :=
  String.mk (stripAux s.data none)

/-- The `description` before-validator of `Blessing` and `LeyLineDisorder`:
`remove_html_tags(v)` requires a string and strips tags. -/
def format_description : Json → Except ParseError String
  | .str s => .ok (remove_html_tags s)
  | _ => .error ⟨[], .wrongType⟩

/-- The least seconds value `datetime.datetime.fromtimestamp` accepts:
0001-01-01T00:00:00 at UTC offset zero.  CPython limits `datetime` years to
1-9999 and raises `ValueError`/`OverflowError` outside that range; the
source's local-time interpretation shifts these cutoffs by the local UTC
offset, rendered here at offset zero. -/
def minTimestamp : Int := -62135596800

/-- The greatest accepted seconds value: 9999-12-31T23:59:59 at UTC offset
zero (see `minTimestamp`). -/
def maxTimestamp : Int := 253402300799

/-- The `open_time` before-validator of `AbyssData`:
`datetime.datetime.fromtimestamp(v) if v else None`.  A falsy value maps to
`none` without touching `fromtimestamp`; a truthy integer (a Python `bool`
counts as the integer 1) becomes a date-time when its year is
representable, and raises a value error otherwise; other truthy values make
`fromtimestamp` raise a type error. -/
def format_open_time (v : Json) : Except ParseError (Option DateTime) :=
  if falsy v then .ok none
  else
    match v with
    | .int n =>
      if minTimestamp ≤ n ∧ n ≤ maxTimestamp then .ok (some ⟨n⟩)
      else .error ⟨[], .valueError⟩
    | .bool _ => .ok (some ⟨1⟩)
    | _ => .error ⟨[], .wrongType⟩

/-- The `close_time` before-validator of `Abyss`:
`datetime.datetime.fromtimestamp(v)` with no falsiness guard; an integer
outside the representable year range 1-9999 raises a value error. -/
def format_close_time : Json → Except ParseError DateTime
  | .int n =>
    if minTimestamp ≤ n ∧ n ≤ maxTimestamp then .ok ⟨n⟩
    else .error ⟨[], .valueError⟩
  | .bool b => .ok ⟨if b then 1 else 0⟩
  | _ => .error ⟨[], .wrongType⟩

/-- The `icon` before-validator of `AbyssEnemy`, a pure string transform:
`f"https://api.ambr.top/assets/UI{'/monster' if 'MonsterIcon' in v else ''}/{v}.png"`. -/
def convert_icon_url (v : String) : String :=
  "https://api.ambr.top/assets/UI" ++
    (if containsSubstr v "MonsterIcon" then "/monster" else "") ++ "/" ++ v ++ ".png"

/-- The `icon` field converter: the f-string transform requires a string. -/
def format_icon : Json → Except ParseError String
  | .str s => .ok (convert_icon_url s)
  | _ => .error ⟨[], .wrongType⟩

/-- Parser for `Blessing`: fields in declaration order, `levelConfigName`
alias for `level_config_name`. -/
def parseBlessing : Json → Except ParseError Blessing
  | .obj kvs => do
    let d ← reqTyped kvs "description" format_description
    let lc ← reqTyped kvs "levelConfigName" asStr
    let vis ← reqTyped kvs "visible" asBool
    .ok ⟨d, lc, vis⟩
  | _ => .error ⟨[], .wrongType⟩

/-- Parser for `ChallengeTarget`. -/
def parseChallengeTarget : Json → Except ParseError ChallengeTarget
  | .obj kvs => do
    let ty ← reqTyped kvs "type" asStr
    let vs ← reqTyped kvs "values" (listOf asInt)
    .ok ⟨ty, vs⟩
  | _ => .error ⟨[], .wrongType⟩

/-- Parser for `Chamber`: `secondMonsterList` is `Optional` with default
`None`, so an absent or null value yields `none`. -/
def parseChamber : Json → Except ParseError Chamber
  | .obj kvs => do
    let i ← reqTyped kvs "id" asInt
    let ct ← reqTyped kvs "challengeTarget" parseChallengeTarget
    let lvl ← reqTyped kvs "monsterLevel" asInt
    let w1 ← reqTyped kvs "firstMonsterList" (listOf asInt)
    let w2 ← match lookup? kvs "secondMonsterList" with
      | none => Except.ok none
      | some .null => Except.ok none
      | some v => withPath (.field "secondMonsterList") ((listOf asInt v).map some)
    .ok ⟨i, ct, lvl, w1, w2⟩
  | _ => .error ⟨[], .wrongType⟩

/-- Parser for `LeyLineDisorder`: textually parallel to `parseBlessing`. -/
def parseLeyLineDisorder : Json → Except ParseError LeyLineDisorder
  | .obj kvs => do
    let d ← reqTyped kvs "description" format_description
    let lc ← reqTyped kvs "levelConfigName" asStr
    let vis ← reqTyped kvs "visible" asBool
    .ok ⟨d, lc, vis⟩
  | _ => .error ⟨[], .wrongType⟩

/-- Parser for `Floor`. -/
def parseFloor : Json → Except ParseError Floor
  | .obj kvs => do
    let i ← reqTyped kvs "id" asInt
    let cs ← reqTyped kvs "chamberList" (listOf parseChamber)
    let ds ← reqTyped kvs "leyLineDisorder" (listOf parseLeyLineDisorder)
    let ov ← reqTyped kvs "overrideMonsterLevel" asInt
    let tn ← reqTyped kvs "teamNum" asInt
    .ok ⟨i, cs, ds, ov, tn⟩
  | _ => .error ⟨[], .wrongType⟩

/-- Parser for `AbyssData`: `openTime` is optional with default `None`, and
when present runs the `format_open_time` validator. -/
def parseAbyssData : Json → Except ParseError AbyssData
  | .obj kvs => do
    let ot ← match lookup? kvs "openTime" with
      | none => Except.ok none
      | some v => withPath (.field "openTime") (format_open_time v)
    let fls ← reqTyped kvs "floorList" (listOf parseFloor)
    .ok ⟨ot, fls⟩
  | _ => .error ⟨[], .wrongType⟩

/-- Parser for `Abyss`: aliases `closeTime`, `entrance`, `schedule`. -/
def parseAbyss : Json → Except ParseError Abyss
  | .obj kvs => do
    let i ← reqTyped kvs "id" asInt
    let ct ← reqTyped kvs "closeTime" format_close_time
    let bl ← reqTyped kvs "blessing" parseBlessing
    let co ← reqTyped kvs "entrance" parseAbyssData
    let sp ← reqTyped kvs "schedule" parseAbyssData
    .ok ⟨i, ct, bl, co, sp⟩
  | _ => .error ⟨[], .wrongType⟩

/-- Parser for `AbyssEnemy`. -/
def parseAbyssEnemy : Json → Except ParseError AbyssEnemy
  | .obj kvs => do
    let ic ← reqTyped kvs "icon" format_icon
    let i ← reqTyped kvs "id" asInt
    let lk ← reqTyped kvs "link" asBool
    let nm ← reqTyped kvs "name" asStr
    .ok ⟨ic, i, lk, nm⟩
  | _ => .error ⟨[], .wrongType⟩

/-- The `enemies` before-validator `_convert_enemies`: the wire value is an
object keyed by opaque ids; its values are parsed in order, keys dropped. -/
def convert_enemies : Json → Except ParseError (List AbyssEnemy)
  | .obj kvs => mapValues parseAbyssEnemy kvs
  | _ => .error ⟨[], .wrongType⟩

/-- The `abyss_items` before-validator `_convert_abyss_items`. -/
def convert_abyss_items : Json → Except ParseError (List Abyss)
  | .obj kvs => mapValues parseAbyss kvs
  | _ => .error ⟨[], .wrongType⟩

/-- Parser for the root `AbyssResponse`: aliases `monsterList`, `items`. -/
def parseAbyssResponse : Json → Except ParseError AbyssResponse
  | .obj kvs => do
    let es ← reqTyped kvs "monsterList" convert_enemies
    let its ← reqTyped kvs "items" convert_abyss_items
    .ok ⟨es, its⟩
  | _ => .error ⟨[], .wrongType⟩

/-! ### Wire-schema predicates (§6)

`...Ok` decides that a JSON value matches the wire schema: all required
fields present and type-correct.  These are the hypotheses of the
valid-input round-trip theorems. -/

/-- Whether a JSON value is an integer leaf. -/
def isInt : Json → Bool
  | .int _ => true
  | _ => false

/-- Whether a required field is present and satisfies `p`. -/
def fieldIs (kvs : List (String × Json)) (k : String) (p : Json → Bool) : Bool :=
  match lookup? kvs k with
  | some v => p v
  | none => false

theorem fieldIs_true {kvs : List (String × Json)} {k : String} {p : Json → Bool}
    (h : fieldIs kvs k p = true) : ∃ v, lookup? kvs k = some v ∧ p v = true := by
  unfold fieldIs at h
  cases hv : lookup? kvs k with
  | none => rw [hv] at h; exact absurd h (by simp)
  | some v => rw [hv] at h; exact ⟨v, rfl, h⟩

theorem isInt_true {v : Json} (h : isInt v = true) : ∃ n, v = Json.int n := by
  cases v <;> simp [isInt] at h ⊢

/-- C3: the `openTime` validator maps the timestamp 0 (and an absent or
null value) to the distinguished "unset" value `none`, while the
`closeTime` validator maps the timestamp 0 to the epoch date-time, not to
"unset"; the two validators therefore give different results on input 0. -/
theorem open_time_zero_unset_close_time_zero_epoch :
    format_open_time (Json.int 0) = .ok none ∧
    format_open_time Json.null = .ok none ∧
    parseAbyssData (Json.obj [("floorList", Json.arr [])]) = .ok ⟨none, []⟩ ∧
    format_close_time (Json.int 0) = .ok ⟨0⟩ ∧
    (format_close_time (Json.int 0)).map some ≠ format_open_time (Json.int 0) := by
  refine ⟨rfl, rfl, rfl, rfl, ?_⟩
  intro hcontra
  simp [format_close_time, format_open_time, falsy, Except.map, minTimestamp, maxTimestamp]
    at hcontra

/-- C5: for a non-empty raw asset name, the icon URL transform yields
`https://api.ambr.top/assets/UI/monster/<raw>.png` when the name contains
the substring `MonsterIcon` and `https://api.ambr.top/assets/UI/<raw>.png`
otherwise; being a total function of the string, it never fails. -/
theorem icon_url_transform (raw : String) (h : raw ≠ "") :
    convert_icon_url raw =
      (if containsSubstr raw "MonsterIcon" then
        "https://api.ambr.top/assets/UI/monster/" ++ raw ++ ".png"
      else
        "https://api.ambr.top/assets/UI/" ++ raw ++ ".png") := by
  have h1 : "https://api.ambr.top/assets/UI" ++ "/monster" ++ "/" =
      "https://api.ambr.top/assets/UI/monster/" := by decide
  have h2 : "https://api.ambr.top/assets/UI" ++ "" ++ "/" =
      "https://api.ambr.top/assets/UI/" := by decide
  unfold convert_icon_url
  by_cases hc : containsSubstr raw "MonsterIcon" = true
  · simp only [hc, if_true, h1]
  · simp only [Bool.not_eq_true] at hc
    simp only [hc, Bool.false_eq_true, if_false, h2]

/-- Witness for C5 on both branches of the transform. -/
theorem icon_url_transform_witness :
    ("MonsterIcon_Test" : String) ≠ "" ∧
      convert_icon_url "MonsterIcon_Test" =
        "https://api.ambr.top/assets/UI/monster/MonsterIcon_Test.png" ∧
      convert_icon_url "Other_Test" = "https://api.ambr.top/assets/UI/Other_Test.png" :=
  ⟨by decide,
    by rw [icon_url_transform "MonsterIcon_Test" (by decide)]; decide,
    by rw [icon_url_transform "Other_Test" (by decide)]; decide⟩

/-- Spec-side `mapKeyedCollection` (§4.1) restricted to its essence on the
value sequence: apply the item parser to each value in order, failing on
the first failure. -/
def exceptMapList {α : Type} (p : Json → Except ParseError α) :
    List Json → Except ParseError (List α)
  | [] => .ok []
  | x :: xs => do
    let a ← p x
    let as ← exceptMapList p xs
    .ok (a :: as)

theorem mapValues_zip {α : Type} (p : Json → Except ParseError α) :
    ∀ (ks : List String) (vs : List Json), ks.length = vs.length →
      mapValues p (ks.zip vs) = exceptMapList p vs := by
  intro ks
  induction ks with
  | nil =>
    intro vs h
    cases vs with
    | nil => rfl
    | cons v vt => simp at h
  | cons k kt ih =>
    intro vs h
    cases vs with
    | nil => simp at h
    | cons v vt =>
      simp only [List.length_cons, Nat.add_right_cancel_iff] at h
      simp only [List.zip_cons_cons, mapValues, exceptMapList]
      rw [show List.zipWith Prod.mk kt vt = kt.zip vt from rfl, ih vt h]

/-- C4: the keyed-mapping converters for `monsterList` and `items` discard
the keys, preserve the mapping's insertion order, and apply the item parser
to each value: the result equals the in-order elementwise parse of the
value sequence and does not depend on the key strings. -/
theorem keyed_mapping_discards_keys (ks1 ks2 : List String) (vs : List Json)
    (h1 : ks1.length = vs.length) (h2 : ks2.length = vs.length) :
    convert_enemies (Json.obj (ks1.zip vs)) = exceptMapList parseAbyssEnemy vs ∧
    convert_enemies (Json.obj (ks1.zip vs)) = convert_enemies (Json.obj (ks2.zip vs)) ∧
    convert_abyss_items (Json.obj (ks1.zip vs)) = exceptMapList parseAbyss vs ∧
    convert_abyss_items (Json.obj (ks1.zip vs)) = convert_abyss_items (Json.obj (ks2.zip vs)) := by
  refine ⟨?_, ?_, ?_, ?_⟩
  · simp only [convert_enemies, mapValues_zip parseAbyssEnemy ks1 vs h1]
  · simp only [convert_enemies, mapValues_zip parseAbyssEnemy ks1 vs h1,
      mapValues_zip parseAbyssEnemy ks2 vs h2]
  · simp only [convert_abyss_items, mapValues_zip parseAbyss ks1 vs h1]
  · simp only [convert_abyss_items, mapValues_zip parseAbyss ks1 vs h1,
      mapValues_zip parseAbyss ks2 vs h2]

/-- Witness for C4: two enemy entries keyed `"1"`/`"2"` parse to the same
ordered sequence as when keyed `"b"`/`"a"`. -/
theorem keyed_mapping_discards_keys_witness :
    convert_enemies (Json.obj [
      ("1", Json.obj [("icon", .str "MonsterIcon_A"), ("id", .int 1), ("link", .bool true),
        ("name", .str "A")]),
      ("2", Json.obj [("icon", .str "B"), ("id", .int 2), ("link", .bool false),
        ("name", .str "B")])]) =
    convert_enemies (Json.obj [
      ("b", Json.obj [("icon", .str "MonsterIcon_A"), ("id", .int 1), ("link", .bool true),
        ("name", .str "A")]),
      ("a", Json.obj [("icon", .str "B"), ("id", .int 2), ("link", .bool false),
        ("name", .str "B")])]) :=
  (keyed_mapping_discards_keys ["1", "2"] ["b", "a"]
    [Json.obj [("icon", .str "MonsterIcon_A"), ("id", .int 1), ("link", .bool true),
      ("name", .str "A")],
     Json.obj [("icon", .str "B"), ("id", .int 2), ("link", .bool false),
      ("name", .str "B")]] (by decide) (by decide)).2.1

theorem parseLeyLineDisorder_eq_map (j : Json) :
    parseLeyLineDisorder j =
      Except.map (fun b : Blessing =>
        (⟨b.description, b.level_config_name, b.visible⟩ : LeyLineDisorder))
        (parseBlessing j) := by
  cases j
  case obj kvs =>
    simp only [parseBlessing, parseLeyLineDisorder]
    cases h1 : reqTyped kvs "description" format_description with
    | error e => rfl
    | ok d =>
      cases h2 : reqTyped kvs "levelConfigName" asStr with
      | error e => rfl
      | ok lc =>
        cases h3 : reqTyped kvs "visible" asBool with
        | error e => rfl
        | ok vis => rfl
  all_goals rfl

/-- C9: the `Blessing` and `LeyLineDisorder` parsers are extensionally
equal: on every raw JSON value they either fail with the same error or
both succeed with identical description, levelConfigName and visible
values. -/
theorem blessing_leyline_parsers_agree (j : Json) :
    (∃ e, parseBlessing j = .error e ∧ parseLeyLineDisorder j = .error e) ∨
    (∃ b d, parseBlessing j = .ok b ∧ parseLeyLineDisorder j = .ok d ∧
      d.description = b.description ∧ d.level_config_name = b.level_config_name ∧
      d.visible = b.visible) := by
  cases h : parseBlessing j with
  | error e =>
    left
    refine ⟨e, rfl, ?_⟩
    rw [parseLeyLineDisorder_eq_map, h]
    rfl
  | ok b =>
    right
    refine ⟨b, ⟨b.description, b.level_config_name, b.visible⟩, rfl, ?_, rfl, rfl, rfl⟩
    rw [parseLeyLineDisorder_eq_map, h]
    rfl

/-! ### Failure semantics -/

theorem mapValues_error {α : Type} {p : Json → Except ParseError α} :
    ∀ l : List (String × Json), (∃ kv ∈ l, ∃ e, p kv.2 = .error e) →
      ∃ e2, mapValues p l = .error e2 := by
  intro l
  induction l with
  | nil =>
    rintro ⟨kv, hm, _⟩
    simp at hm
  | cons a rest ih =>
    rintro ⟨kv, hm, e, he⟩
    obtain ⟨k1, v1⟩ := a
    cases hp : p v1 with
    | error e0 => exact ⟨e0, by simp only [mapValues, hp]; rfl⟩
    | ok x =>
      rcases List.mem_cons.mp hm with rfl | hm2
      · rw [hp] at he
        exact absurd he (by simp)
      · obtain ⟨e2, h2⟩ := ih ⟨kv, hm2, e, he⟩
        exact ⟨e2, by simp only [mapValues, hp, h2]; rfl⟩

theorem parseListIdx_error_at {α : Type} {p : Json → Except ParseError α} :
    ∀ (pre : List Json) (x : Json) (post : List Json) (e : ParseError) (n : Nat),
      (∀ j ∈ pre, ∃ a, p j = .ok a) → p x = .error e →
      parseListIdx p n (pre ++ x :: post) =
        .error ⟨PathItem.index (n + pre.length) :: e.path, e.kind⟩ := by
  intro pre
  induction pre with
  | nil =>
    intro x post e n hpre hx
    simp only [List.nil_append, parseListIdx, hx, withPath, List.length_nil, Nat.add_zero]
    rfl
  | cons y yt ih =>
    intro x post e n hpre hx
    obtain ⟨ay, hay⟩ := hpre y (by simp)
    have hyt : ∀ j ∈ yt, ∃ a, p j = .ok a := fun j hj => hpre j (by simp [hj])
    have harith : n + 1 + yt.length = n + (y :: yt).length := by
      simp only [List.length_cons]
      omega
    rw [List.cons_append]
    simp only [parseListIdx, hay, withPath]
    rw [ih x post e (n + 1) hyt hx, ← harith]
    rfl

theorem parseFloor_missing_chamberList (bad : List (String × Json))
    (hid : fieldIs bad "id" isInt = true) (hmiss : lookup? bad "chamberList" = none) :
    parseFloor (Json.obj bad) = .error ⟨[PathItem.field "chamberList"], .missing⟩ := by
  obtain ⟨v, hv, hp⟩ := fieldIs_true hid
  obtain ⟨n, rfl⟩ := isInt_true hp
  simp only [parseFloor, reqTyped, hv, hmiss, withPath, asInt]
  rfl

/-- A top-level payload, valid except for whatever floor list is plugged
into the `entrance` schedule, used to surface a nested floor failure at the
top-level parse. -/
def mkC2Payload (fls : List Json) : Json :=
  Json.obj [
    ("monsterList", Json.obj [("1", Json.obj [("icon", .str "MonsterIcon_X"),
      ("id", .int 1), ("link", .bool true), ("name", .str "X")])]),
    ("items", Json.obj [("1", Json.obj [
      ("id", .int 1),
      ("closeTime", .int 1709258399),
      ("blessing", Json.obj [("description", .str "b"), ("levelConfigName", .str "c"),
        ("visible", .bool true)]),
      ("entrance", Json.obj [("floorList", Json.arr fls)]),
      ("schedule", Json.obj [("floorList", Json.arr [])])])])]

theorem parseAbyssData_entrance_error (fls : List Json) (e : ParseError)
    (hf : parseListIdx parseFloor 0 fls = .error e) :
    parseAbyssData (Json.obj [("floorList", Json.arr fls)]) =
      .error ⟨PathItem.field "floorList" :: e.path, e.kind⟩ := by
  simp only [parseAbyssData, reqTyped, lookup?, String.reduceEq, reduceIte, listOf, hf, withPath]
  rfl

theorem mkC2Payload_error (fls : List Json) (e : ParseError)
    (hf : parseListIdx parseFloor 0 fls = .error e) :
    parseAbyssResponse (mkC2Payload fls) =
      .error ⟨PathItem.field "items" :: PathItem.field "entrance" ::
        PathItem.field "floorList" :: e.path, e.kind⟩ := by
  have hAD := parseAbyssData_entrance_error fls e hf
  simp only [mkC2Payload, parseAbyssResponse, reqTyped, lookup?, String.reduceEq, reduceIte,
    convert_enemies, convert_abyss_items, mapValues, parseAbyssEnemy, parseAbyss,
    parseBlessing, format_icon, format_close_time, format_description, asInt, asStr, asBool,
    hAD, withPath]
  rfl

/-- C2: failure is total and fail-fast.  First, if any entry of the `items`
mapping fails its own parser, the whole top-level parse returns an error
(no partial or degraded object).  Second, a floor object that is missing
`chamberList` (its earlier field `id` being well-formed, and the floors
before it parsing successfully) makes the whole top-level parse fail with a
missing-field error whose path contains that floor's index and the
`chamberList` field name. -/
theorem parse_fails_whole_on_nested_failure :
    (∀ (me : Json) (itemKvs : List (String × Json)),
      (∃ kv ∈ itemKvs, ∃ e, parseAbyss kv.2 = .error e) →
      ∃ e2, parseAbyssResponse
        (Json.obj [("monsterList", me), ("items", Json.obj itemKvs)]) = .error e2) ∧
    (∀ (pre : List Json) (bad : List (String × Json)) (post : List Json),
      (∀ j ∈ pre, ∃ f, parseFloor j = .ok f) →
      fieldIs bad "id" isInt = true →
      lookup? bad "chamberList" = none →
      ∃ e, parseAbyssResponse (mkC2Payload (pre ++ Json.obj bad :: post)) = .error e ∧
        e.kind = .missing ∧ PathItem.index pre.length ∈ e.path ∧
        PathItem.field "chamberList" ∈ e.path) := by
  constructor
  · intro me itemKvs hbad
    obtain ⟨e2, h2⟩ := mapValues_error itemKvs hbad
    cases hme : convert_enemies me with
    | error e0 =>
      refine ⟨⟨PathItem.field "monsterList" :: e0.path, e0.kind⟩, ?_⟩
      simp only [parseAbyssResponse, reqTyped, lookup?, String.reduceEq, reduceIte, hme,
        withPath]
      rfl
    | ok l =>
      refine ⟨⟨PathItem.field "items" :: e2.path, e2.kind⟩, ?_⟩
      simp only [parseAbyssResponse, reqTyped, lookup?, String.reduceEq, reduceIte, hme,
        convert_abyss_items, h2, withPath]
      rfl
  · intro pre bad post hpre hid hmiss
    have hbadFloor := parseFloor_missing_chamberList bad hid hmiss
    have hlist := parseListIdx_error_at pre (Json.obj bad) post
      ⟨[PathItem.field "chamberList"], .missing⟩ 0 hpre hbadFloor
    refine ⟨⟨[PathItem.field "items", PathItem.field "entrance", PathItem.field "floorList",
      PathItem.index pre.length, PathItem.field "chamberList"], .missing⟩, ?_, rfl, ?_, ?_⟩
    · have := mkC2Payload_error (pre ++ Json.obj bad :: post)
        ⟨[PathItem.index (0 + pre.length), PathItem.field "chamberList"], .missing⟩ hlist
      simpa using this
    · simp
    · simp

/-- Witness for C2: a null item entry fails the whole parse, and a floor
missing `chamberList` fails it with the documented error path. -/
theorem parse_fails_whole_on_nested_failure_witness :
    (∃ e2, parseAbyssResponse (Json.obj [("monsterList", Json.obj []),
        ("items", Json.obj [("1", Json.null)])]) = .error e2) ∧
    (∃ e, parseAbyssResponse (mkC2Payload [Json.obj [("id", Json.int 5)]]) = .error e ∧
      e.kind = .missing ∧ PathItem.index 0 ∈ e.path ∧
      PathItem.field "chamberList" ∈ e.path) :=
  ⟨parse_fails_whole_on_nested_failure.1 (Json.obj []) [("1", Json.null)]
      ⟨("1", Json.null), by simp, ⟨[], .wrongType⟩, rfl⟩,
    by
      have h := parse_fails_whole_on_nested_failure.2 [] [("id", Json.int 5)] []
        (by simp) (by decide) rfl
      simpa using h⟩

/-! ### Python `str.format` with one positional argument

`ChallengeTarget.formatted` is `self.type.format("/".join(...))`.  We model
the subset of `str.format` these templates can reach: literal text, the
escapes `{{` and `}}`, and replacement fields that are empty (automatic
numbering) or a decimal index (manual numbering), with exactly one
positional argument supplied.  Conversion/format-spec suffixes and keyword
fields are modelled as errors, as are the `IndexError`/`ValueError` cases:
an index other than 0, a second automatic field, mixing automatic and
manual numbering, a lone brace, and an unterminated field. -/

/-- Decimal value of a digit run. -/
def digitsVal (ds : List Char) : Nat :=
  ds.foldl (fun n c => 10 * n + (c.toNat - 48)) 0

/-- Format scanner: the `Option` state holds the digits of an open
replacement field, `au`/`mu` record prior automatic/manual numbering. -/
def fmtSM (arg : List Char) : List Char → Option (List Char) → Bool → Bool → Except Unit (List Char)
  | [], none, _, _ => .ok []
  | [], some _, _, _ => .error ()
  | c :: r, none, au, mu =>
    if c = '{' then
      match r with
      | c2 :: r2 =>
        if c2 = '{' then (fun t => '{' :: t) <$> fmtSM arg r2 none au mu
        else if c2 = '}' then
          if au || mu then .error ()
          else (fun t => arg ++ t) <$> fmtSM arg r2 none true mu
        else if c2.isDigit then fmtSM arg r2 (some [c2]) au mu
        else .error ()
      | [] => .error ()
    else if c = '}' then
      match r with
      | c2 :: r2 =>
        if c2 = '}' then (fun t => '}' :: t) <$> fmtSM arg r2 none au mu
        else .error ()
      | [] => .error ()
    else (fun t => c :: t) <$> fmtSM arg r none au mu
  | c :: r, some ds, au, mu =>
    if c = '}' then
      if ds.isEmpty then
        if au || mu then .error ()
        else (fun t => arg ++ t) <$> fmtSM arg r none true mu
      else if au then .error ()
      else if digitsVal ds = 0 then (fun t => arg ++ t) <$> fmtSM arg r none au true
      else .error ()
    else if c.isDigit then fmtSM arg r (some (ds ++ [c])) au mu
    else .error ()

/-- Python `template.format(arg)` with a single positional argument. -/
def pyFormat1 (template arg : String) : Except Unit String :=
  (fmtSM arg.data template.data none false false).map String.mk

/-- The `formatted` property of `ChallengeTarget`:
`self.type.format("/".join(str(v) for v in self.values))`; the result is an
error exactly when the Python property raises. -/
def ChallengeTarget.formatted (t : ChallengeTarget) : Except Unit String :=
  pyFormat1 t.type (String.intercalate "/" (t.values.map toString))

/-- A character that is not a brace, hence literal text for `str.format`. -/
def noBraceChar (c : Char) : Bool :=
  !(c = '{' || c = '}')

/-- A string with no brace characters at all. -/
def hasNoBrace (s : String) : Bool :=
  s.data.all noBraceChar

theorem fmtSM_lit (arg : List Char) :
    ∀ (l : List Char) (rest : List Char) (au mu : Bool),
      (∀ c ∈ l, noBraceChar c = true) →
      fmtSM arg (l ++ rest) none au mu = (fun t => l ++ t) <$> fmtSM arg rest none au mu := by
  intro l
  induction l with
  | nil =>
    intro rest au mu hl
    simp only [List.nil_append]
    cases h : fmtSM arg rest none au mu <;> rfl
  | cons c ct ih =>
    intro rest au mu hl
    have hc := hl c (by simp)
    have hc1 : ¬(c = '{') := fun hcc => by subst hcc; simp [noBraceChar] at hc
    have hc2 : ¬(c = '}') := fun hcc => by subst hcc; simp [noBraceChar] at hc
    rw [List.cons_append, fmtSM.eq_def]
    dsimp only
    rw [if_neg hc1, if_neg hc2, ih rest au mu (fun d hd => hl d (by simp [hd]))]
    cases fmtSM arg rest none au mu <;> rfl

theorem pyFormat1_single_placeholder (a b arg : String)
    (ha : hasNoBrace a = true) (hb : hasNoBrace b = true) :
    pyFormat1 (a ++ "{0}" ++ b) arg = .ok (a ++ arg ++ b) := by
  have ha2 : ∀ c ∈ a.data, noBraceChar c = true :=
    List.all_eq_true.mp (show a.data.all noBraceChar = true from ha)
  have hb2 : ∀ c ∈ b.data, noBraceChar c = true :=
    List.all_eq_true.mp (show b.data.all noBraceChar = true from hb)
  have hdata : (a ++ "{0}" ++ b).data = a.data ++ ('{' :: '0' :: '}' :: b.data) := by
    show (a.data ++ ['{', '0', '}']) ++ b.data = a.data ++ ('{' :: '0' :: '}' :: b.data)
    rw [List.append_assoc]
    rfl
  have hstep : fmtSM arg.data ('{' :: '0' :: '}' :: b.data) none false false =
      (fun t => arg.data ++ t) <$> fmtSM arg.data b.data none false true := rfl
  have hbeval : fmtSM arg.data b.data none false true = .ok b.data := by
    have h0 := fmtSM_lit arg.data b.data [] false true hb2
    rw [List.append_nil] at h0
    calc fmtSM arg.data b.data none false true
        = (fun t => b.data ++ t) <$> fmtSM arg.data [] none false true := h0
      _ = Except.ok (b.data ++ []) := rfl
      _ = Except.ok b.data := by rw [List.append_nil]
  unfold pyFormat1
  rw [hdata, fmtSM_lit arg.data a.data ('{' :: '0' :: '}' :: b.data) false false ha2, hstep,
    hbeval]
  show Except.ok (String.mk (a.data ++ (arg.data ++ b.data))) = Except.ok (a ++ arg ++ b)
  rw [← List.append_assoc]
  rfl

/-- C6: for a challenge-target template with exactly one placeholder
(written `{0}` between brace-free segments) and a non-empty integer value
sequence, the derived `formatted` string is the template with the
placeholder replaced by the values stringified and joined with `/`. -/
theorem challenge_target_formatted (a b : String) (vs : List Int)
    (ha : hasNoBrace a = true) (hb : hasNoBrace b = true) (hvs : vs ≠ []) :
    ChallengeTarget.formatted ⟨a ++ "{0}" ++ b, vs⟩ =
      .ok (a ++ String.intercalate "/" (vs.map toString) ++ b) := by
  unfold ChallengeTarget.formatted
  exact pyFormat1_single_placeholder a b _ ha hb

/-- Witness for C6: the spec's example substitution. -/
theorem challenge_target_formatted_witness :
    ChallengeTarget.formatted ⟨"Defeat all enemies within " ++ "{0}" ++ "s", [90]⟩ =
      .ok "Defeat all enemies within 90s" := by
  rw [challenge_target_formatted "Defeat all enemies within " "s" [90] (by decide) (by decide)
    (by decide)]
  simp only [Except.ok.injEq]
  decide

/-- C10: with the same single-placeholder template shape, accessing
`formatted` on a `ChallengeTarget` whose `values` sequence is empty is not
an error: the placeholder is replaced by the empty string, the `/`-join of
zero values. -/
theorem challenge_target_formatted_empty_values (a b : String)
    (ha : hasNoBrace a = true) (hb : hasNoBrace b = true) :
    ChallengeTarget.formatted ⟨a ++ "{0}" ++ b, ([] : List Int)⟩ = .ok (a ++ "" ++ b) := by
  unfold ChallengeTarget.formatted
  exact pyFormat1_single_placeholder a b _ ha hb

/-- Witness for C10: the example template with no values. -/
theorem challenge_target_formatted_empty_values_witness :
    ChallengeTarget.formatted ⟨"Defeat all enemies within " ++ "{0}" ++ "s", ([] : List Int)⟩ =
      .ok ("Defeat all enemies within " ++ "" ++ "s") :=
  challenge_target_formatted_empty_values "Defeat all enemies within " "s" (by decide)
    (by decide)

/-! ### HTML tag stripping -/

/-- A string with no `<`, hence starting no tag. -/
def noLtChar (s : String) : Bool :=
  s.data.all (fun c => !(c = '<'))

/-- A string with no `>`, hence fully inside a tag when braced by `<`/`>`. -/
def noGtChar (s : String) : Bool :=
  s.data.all (fun c => !(c = '>'))

theorem stripAux_lit : ∀ (l rest : List Char), (∀ c ∈ l, ¬(c = '<')) →
    stripAux (l ++ rest) none = l ++ stripAux rest none := by
  intro l
  induction l with
  | nil => intro rest h; rfl
  | cons c ct ih =>
    intro rest h
    have hc : ¬(c = '<') := h c (by simp)
    rw [List.cons_append, stripAux.eq_def]
    dsimp only
    rw [if_neg hc, ih rest (fun d hd => h d (by simp [hd]))]
    rfl

theorem stripAux_tag : ∀ (t rest buf : List Char), (∀ c ∈ t, ¬(c = '>')) →
    stripAux (t ++ '>' :: rest) (some buf) = stripAux rest none := by
  intro t
  induction t with
  | nil =>
    intro rest buf h
    rfl
  | cons c ct ih =>
    intro rest buf h
    have hc : ¬(c = '>') := h c (by simp)
    rw [List.cons_append, stripAux.eq_def]
    dsimp only
    rw [if_neg hc]
    exact ih rest (c :: buf) (fun d hd => h d (by simp [hd]))

/-- C7: the HTML-stripping transform removes exactly the substrings
matching the tag pattern `<...>` (a `<`, tag text free of `>`, then `>`)
and leaves all other content, entities included, unchanged; in particular
on the spec's example it yields `"Hello World"`. -/
theorem remove_html_tags_spec :
    (∀ pre t rest : String, noLtChar pre = true → noGtChar t = true →
      remove_html_tags (pre ++ "<" ++ t ++ ">" ++ rest) = pre ++ remove_html_tags rest) ∧
    (∀ s : String, noLtChar s = true → remove_html_tags s = s) ∧
    remove_html_tags "<p>Hello <b>World</b></p>" = "Hello World" := by
  refine ⟨?_, ?_, by decide⟩
  · intro pre t rest hpre ht
    have hpre2 : ∀ c ∈ pre.data, ¬(c = '<') := by
      intro c hcmem
      have hx := List.all_eq_true.mp
        (show pre.data.all (fun c => !(c = '<')) = true from hpre) c hcmem
      simpa using hx
    have ht2 : ∀ c ∈ t.data, ¬(c = '>') := by
      intro c hcmem
      have hx := List.all_eq_true.mp
        (show t.data.all (fun c => !(c = '>')) = true from ht) c hcmem
      simpa using hx
    have hdata : (pre ++ "<" ++ t ++ ">" ++ rest).data
        = pre.data ++ ('<' :: (t.data ++ '>' :: rest.data)) := by
      show (((pre.data ++ ['<']) ++ t.data) ++ ['>']) ++ rest.data
          = pre.data ++ ('<' :: (t.data ++ '>' :: rest.data))
      simp
    have hlt : stripAux ('<' :: (t.data ++ '>' :: rest.data)) none
        = stripAux rest.data none := by
      rw [stripAux.eq_def]
      dsimp only
      rw [if_pos rfl]
      exact stripAux_tag t.data rest.data ['<'] ht2
    unfold remove_html_tags
    rw [hdata, stripAux_lit pre.data _ hpre2, hlt]
    rfl
  · intro s hs
    have hs2 : ∀ c ∈ s.data, ¬(c = '<') := by
      intro c hcmem
      have hx := List.all_eq_true.mp
        (show s.data.all (fun c => !(c = '<')) = true from hs) c hcmem
      simpa using hx
    have h0 := stripAux_lit s.data [] hs2
    rw [List.append_nil] at h0
    unfold remove_html_tags
    rw [h0]
    show String.mk (s.data ++ []) = s
    rw [List.append_nil]

/-- Witness for C7: one tag stripped between untouched segments, and a
tag-free string preserved verbatim. -/
theorem remove_html_tags_spec_witness :
    remove_html_tags ("Hello " ++ "<" ++ "b" ++ ">" ++ "World")
        = "Hello " ++ remove_html_tags "World" ∧
      remove_html_tags "Hello World" = "Hello World" :=
  ⟨remove_html_tags_spec.1 "Hello " "b" "World" (by decide) (by decide),
    remove_html_tags_spec.2.1 "Hello World" (by decide)⟩
